import Mathlib

/-!
Shallow embedding of the ludolph MCP tool-plugin core:
`src/mcp/security.py` (path confinement), `src/mcp/tools/__init__.py`
(catalog merge and dispatch) and `src/mcp/tools/meta.py` (plugin
administration).  Python dicts are modelled as association lists with
last-binding-wins lookup, the plugin directory as an association list from
file names to file contents, paths as lists of components, and host-language
primitives (regular-expression search, `compile`) as explicit oracles.
-/

/-- Result of a tool invocation: `{content: str, error: str | None}`. -/
structure ToolResult where
  content : String
  error : Option String
deriving Repr, DecidableEq

/-- Lookup in a Python dict modelled as an association list built by
insertion/update: a binding added later (further right) wins. -/
def dlookup {α : Type} : List (String × α) → String → Option α
  | [], _ => none
  | kv :: rest, k =>
    match dlookup rest k with
    | some v => some v
    | none => if kv.1 = k then some kv.2 else none

/-- Removal of a single key, modelling `Path.unlink` of one file of the
plugin directory. -/
def derase {α : Type} (m : List (String × α)) (k : String) : List (String × α) :=
  m.filter (fun kv => kv.1 != k)

/-- Contiguous-sublist test on character lists. -/
def hasSegment : List Char → List Char → Bool
  | [], needle => needle.isEmpty
  | c :: rest, needle => needle.isPrefixOf (c :: rest) || hasSegment rest needle

/-- Python substring test `needle in hay`. -/
def strContains (hay needle : String) : Bool :=
  hasSegment hay.data needle.data

/-- Python `s.startswith(pre)`. -/
def pyStartsWith (s pre : String) : Bool :=
  pre.data.isPrefixOf s.data

/-- Python `s.strip()`: remove leading and trailing whitespace. -/
def pyStrip (s : String) : String :=
  ⟨((s.data.dropWhile Char.isWhitespace).reverse.dropWhile Char.isWhitespace).reverse⟩

/-- Split a character list on `'/'`. -/
def splitSlash : List Char → List (List Char)
  | [] => [[]]
  | c :: rest =>
    if c = '/' then [] :: splitSlash rest
    else
      match splitSlash rest with
      | [] => [[c]]
      | w :: ws => (c :: w) :: ws

/-- `pathlib` parsing of a path string into components: `/`-separated,
dropping empty components and `"."` components. -/
def pathComponents (s : String) : List String :=
  ((splitSlash s.data).map (fun w => String.mk w)).filter (fun c => c != "" && c != ".")

/-- `vault / relative` of `pathlib`: an absolute right operand replaces the
left operand entirely. -/
def joinPath (vault : List String) (rel : String) : List String :=
  if pyStartsWith rel "/" then pathComponents rel else vault ++ pathComponents rel

/-- `safe_path` of `src/mcp/security.py`, for an initialized module.
`res` is the filesystem canonicalization performed by `Path.resolve`
(symlink and mount dependent, hence a parameter); `vault` is the stored
`_VAULT_PATH` (already resolved by `init_security`).  The final containment
test embeds `full.relative_to(vault)`, which on resolved absolute paths
succeeds exactly when `vault`'s components are a prefix of `full`'s. -/
def safe_path (res : List String → List String) (vault : List String)
    (relative : String) : Option (List String) :=
  if strContains relative ".." then none
  else if relative == "" || relative == "." then some vault
  else
    let full := res (joinPath vault relative)
    if vault.isPrefixOf full then some full else none

/-- Exceptions that the Python code of `security.py` can raise or catch. -/
inductive PyExn where
  | valueError (msg : String)
  | runtimeError (msg : String)
deriving Repr, DecidableEq

/-- `full.relative_to(vault)`: returns the remainder, raising `ValueError`
when `full` is not `vault` or a descendant of it. -/
def relative_toE (full vault : List String) : Except PyExn (List String) :=
  if vault.isPrefixOf full then .ok (full.drop vault.length)
  else .error (.valueError "is not in the subpath")

/-- `get_vault_path`: raises `RuntimeError` when the module is not
initialized. -/
def get_vault_pathE (v : Option (List String)) : Except PyExn (List String) :=
  match v with
  | none => .error (.runtimeError "Security module not initialized")
  | some p => .ok p

/-- Whether some component of a path carries an embedded NUL byte. -/
def hasNulByte (p : List String) : Bool :=
  p.any (fun comp => comp.data.any (fun ch => ch == '\x00'))

/-- `Path.resolve()` as called at `security.py:49` — OUTSIDE the `try`.
Inside `realpath`, `os.lstat` raises `ValueError("embedded null byte")`
for a path containing a NUL character (only `OSError` is handled there);
for NUL-free paths, canonicalization `res` yields a path. -/
def resolveE (res : List String → List String) (p : List String) :
    Except PyExn (List String) :=
  if hasNulByte p then .error (.valueError "embedded null byte")
  else .ok (res p)

/-- Exception-aware embedding of `safe_path`.  The `.resolve()` call sits
outside the `try`, so its `ValueError` on a NUL-containing path
propagates; the `try/except ValueError` covers only
`full.relative_to(vault)` and is the match on the `valueError`
constructor. -/
def safe_pathE (res : List String → List String) (v : Option (List String))
    (relative : String) : Except PyExn (Option (List String)) := do
  let vault ← get_vault_pathE v
  if strContains relative ".." then
    return none
  else if relative == "" || relative == "." then
    return (some vault)
  else
    let full ← resolveE res (joinPath vault relative)
    match relative_toE full vault with
    | .ok _ => return (some full)
    | .error (.valueError _) => return none
    | .error e => .error e

/-- `call_tool` of `src/mcp/tools/__init__.py`: look the name up in the
merged handler table; a missing binding yields the unknown-tool result, a
handler that raises (modelled as `Except.error`) is caught and its message
rendered as the error field.  Polymorphic in the type of the arguments
mapping, which `call_tool` never inspects. -/
def call_tool {A : Type} (table : List (String × (A → Except String ToolResult)))
    (name : String) (args : A) : ToolResult :=
  match dlookup table name with
  | none => ⟨"", some ("Unknown tool: " ++ name)⟩
  | some handler =>
    match handler args with
    | .ok r => r
    | .error e => ⟨"", some e⟩

/-- Keys of `files.HANDLERS`. -/
def files_HANDLER_KEYS : List String :=
  ["read_file", "write_file", "append_file", "delete_file", "move_file", "copy_file"]

/-- Keys of `directories.HANDLERS`. -/
def directories_HANDLER_KEYS : List String :=
  ["list_directory", "create_directory", "delete_directory", "file_tree"]

/-- Keys of `search.HANDLERS`. -/
def search_HANDLER_KEYS : List String :=
  ["search", "search_advanced"]

/-- Keys of `metadata.HANDLERS`. -/
def metadata_HANDLER_KEYS : List String :=
  ["file_info", "get_frontmatter", "update_frontmatter"]

/-- Keys of `editing.HANDLERS`. -/
def editing_HANDLER_KEYS : List String :=
  ["prepend_file", "patch_file"]

/-- Keys of `periodic.HANDLERS`. -/
def periodic_HANDLER_KEYS : List String :=
  ["periodic_note", "append_periodic"]

/-- Keys of `batch.HANDLERS`. -/
def batch_HANDLER_KEYS : List String :=
  ["read_files"]

/-- Keys of `tags.HANDLERS`. -/
def tags_HANDLER_KEYS : List String :=
  ["list_tags", "find_by_tag"]

/-- Keys of `analysis.HANDLERS`. -/
def analysis_HANDLER_KEYS : List String :=
  ["document_outline", "get_links", "get_footnotes", "get_embeds"]

/-- Keys of `tasks.HANDLERS`. -/
def tasks_HANDLER_KEYS : List String :=
  ["extract_tasks"]

/-- Keys of `text.HANDLERS`. -/
def text_HANDLER_KEYS : List String :=
  ["find_replace", "extract_code_blocks", "extract_quotes"]

/-- Keys of `backlinks.HANDLERS`. -/
def backlinks_HANDLER_KEYS : List String :=
  ["get_backlinks", "recent_files"]

/-- Keys of `analytics.HANDLERS`. -/
def analytics_HANDLER_KEYS : List String :=
  ["vault_stats", "date_range"]

/-- Keys of `_CORE_HANDLERS` in `src/mcp/tools/__init__.py`, in merge order.
The module list there is exactly these thirteen modules: `meta` is not
imported and not merged. -/
def _CORE_HANDLER_KEYS : List String :=
  files_HANDLER_KEYS ++ directories_HANDLER_KEYS ++ search_HANDLER_KEYS ++
  metadata_HANDLER_KEYS ++ editing_HANDLER_KEYS ++ periodic_HANDLER_KEYS ++
  batch_HANDLER_KEYS ++ tags_HANDLER_KEYS ++ analysis_HANDLER_KEYS ++
  tasks_HANDLER_KEYS ++ text_HANDLER_KEYS ++ backlinks_HANDLER_KEYS ++
  analytics_HANDLER_KEYS

/-- Keys of `meta.HANDLERS` in `src/mcp/tools/meta.py`. -/
def META_HANDLER_KEYS : List String :=
  ["list_custom_tools", "create_tool", "delete_tool", "reload_tools"]

/-- A tool definition; the claims only consult the `name` field, the
`description` stands for the rest of the wire shape. -/
structure ToolDef where
  name : String
  description : String
deriving Repr, DecidableEq

/-- Outcome of loading one candidate plugin file:
`spec_from_file_location` returning `None` (skip silently), `exec_module`
raising (recorded failure), or a loaded module carrying optional `TOOLS`
and `HANDLERS` exports.  `H` is the type of handler values, which the
loader never calls. -/
inductive LoadOutcome (H : Type) where
  | specFail
  | loadError (msg : String)
  | loaded (tls : Option (List ToolDef)) (hnds : Option (List (String × H)))

/-- One `.py` file of the custom-tools directory, with what loading it
would produce. -/
structure PluginFile (H : Type) where
  name : String
  outcome : LoadOutcome H

/-- Accumulated result of `_load_custom_tools`: extended tool list, updated
handler dict, and the per-module failure log (the printed warnings). -/
structure LoadResult (H : Type) where
  tools : List ToolDef
  handlers : List (String × H)
  failures : List String

/-- `_load_custom_tools` of `src/mcp/tools/__init__.py`, over the ordered
list of files it iterates (the code iterates `sorted(custom_dir.glob("*.py"))`).
Files whose name starts with `_` are skipped; a load failure is recorded
and the loop continues; a loaded module extends `tools` and updates
`handlers` (so a later file's binding wins under `dlookup`). -/
def _load_custom_tools {H : Type} : List (PluginFile H) → LoadResult H
  | [] => ⟨[], [], []⟩
  | f :: rest =>
    if pyStartsWith f.name "_" then _load_custom_tools rest
    else
      match f.outcome with
      | .specFail => _load_custom_tools rest
      | .loadError e =>
        let r := _load_custom_tools rest
        ⟨r.tools, r.handlers,
          ("Warning: Failed to load custom tool " ++ f.name ++ ": " ++ e) :: r.failures⟩
      | .loaded tls hnds =>
        let r := _load_custom_tools rest
        ⟨tls.getD [] ++ r.tools, hnds.getD [] ++ r.handlers, r.failures⟩

/-- Lexicographic less-or-equal on character lists, the order of Python
string comparison restricted to the file names at hand. -/
def charListLe : List Char → List Char → Bool
  | [], _ => true
  | _ :: _, [] => false
  | a :: as, b :: bs => if a = b then charListLe as bs else decide (a < b)

/-- File-name order used by `sorted(custom_dir.glob("*.py"))`. -/
def nameLe (a b : String) : Bool :=
  charListLe a.data b.data

/-- Ordered insertion by file name. -/
def insertByName {H : Type} (f : PluginFile H) :
    List (PluginFile H) → List (PluginFile H)
  | [] => [f]
  | g :: gs =>
    if nameLe f.name g.name then f :: g :: gs else g :: insertByName f gs

/-- Sorting of the directory listing, modelling `sorted(custom_dir.glob("*.py"))`:
ascending by file name. -/
def sortFiles {H : Type} (files : List (PluginFile H)) : List (PluginFile H) :=
  match files with
  | [] => []
  | f :: rest => insertByName f (sortFiles rest)

/-- The whole custom-tool scan: sort the directory listing, then run the
loader loop over it. -/
def loadCustomDir {H : Type} (files : List (PluginFile H)) : LoadResult H :=
  _load_custom_tools (sortFiles files)

/-- `TOOLS = list(_CORE_TOOLS) + _custom_tools`: plain concatenation. -/
def mkTOOLS {H : Type} (coreTools : List ToolDef) (files : List (PluginFile H)) :
    List ToolDef :=
  coreTools ++ (loadCustomDir files).tools

/-- `HANDLERS` as a dict built by `dict(_CORE_HANDLERS)` updated with the
custom handlers: under `dlookup`, a custom binding wins over a core one. -/
def mkHANDLERS {H : Type} (coreHandlers : List (String × H))
    (files : List (PluginFile H)) : List (String × H) :=
  coreHandlers ++ (loadCustomDir files).handlers

/-- `FORBIDDEN_PATTERNS` of `src/mcp/tools/meta.py`, verbatim. -/
def FORBIDDEN_PATTERNS : List String :=
  ["\\bos\\.system\\b",
   "\\bsubprocess\\b",
   "\\beval\\s*\\(",
   "\\bexec\\s*\\(",
   "\\b__import__\\b",
   "\\bopen\\s*\\([^)]*[\x27\x22]w",
   "\\bcompile\\s*\\(",
   "\\bglobals\\s*\\(",
   "\\blocals\\s*\\("]

/-- Host-language primitives used by `_validate_tool_code`:
`research p s` is `re.search(p, s)` being a match, `compileErr s` is
`compile(s, "<custom_tool>", "exec")` raising a `SyntaxError` with the given
message.  Kept abstract: the validator's structure, not the host regex
engine or parser, is what the claims are about. -/
structure ValidatorEnv where
  research : String → String → Bool
  compileErr : String → Option String

/-- The character-class body of the name pattern: one ASCII letter followed
by ASCII letters, digits or underscores. -/
def toolNameChars : List Char → Bool
  | [] => false
  | c :: rest => c.isAlpha && rest.all (fun d => d.isAlphanum || d == '_')

/-- `re.match(r"^[a-zA-Z][a-zA-Z0-9_]*$", name)` being a match.  Python's
`$` also matches just before one trailing newline, hence the second
disjunct. -/
def reMatchToolName (s : String) : Bool :=
  toolNameChars s.data ||
    (s.data.getLast? == some '\n' && toolNameChars s.data.dropLast)

/-- `_validate_tool_name` of `src/mcp/tools/meta.py`: `None` (here `none`)
means the name is accepted. -/
def _validate_tool_name (name : String) : Option String :=
  if name == "" then some "Tool name is required"
  else if !(reMatchToolName name) then
    some "Tool name must start with a letter and contain only alphanumeric characters and underscores"
  else if pyStartsWith name "_" then some "Tool name cannot start with underscore"
  else none

/-- `_validate_tool_code` of `src/mcp/tools/meta.py`: empty check, the two
marker-containment checks, the denylist loop (first matching pattern wins),
then the compile check; `none` means accepted. -/
def _validate_tool_code (env : ValidatorEnv) (code : String) : Option String :=
  if code == "" then some "Code is required"
  else if !(strContains code "TOOLS") then some "Code must define TOOLS list"
  else if !(strContains code "HANDLERS") then some "Code must define HANDLERS dict"
  else
    match FORBIDDEN_PATTERNS.find? (fun p => env.research p code) with
    | some p => some ("Forbidden pattern detected: " ++ p)
    | none =>
      match env.compileErr code with
      | some e => some ("Syntax error: " ++ e)
      | none => none

/-- Arguments mapping of the meta handlers: a dict of strings. -/
abbrev MetaArgs : Type := List (String × String)

/-- `args.get(key, "")`. -/
def aget (args : MetaArgs) (key : String) : String :=
  (dlookup args key).getD ""

/-- Contents of the custom-tools directory: file name to file text.
`_ensure_custom_dir` (a `mkdir -p`) is the identity on this model. -/
abbrev Dir : Type := List (String × String)

/-- `_create_tool` of `src/mcp/tools/meta.py`, acting on the plugin
directory: validate the stripped name, then the code, then reject if the
file exists, and only then write `<name>.py`.  Returns the `ToolResult` and
the directory afterwards. -/
def _create_tool (env : ValidatorEnv) (args : MetaArgs) (dir : Dir) :
    ToolResult × Dir :=
  let name := pyStrip (aget args "name")
  let code := aget args "code"
  match _validate_tool_name name with
  | some e => (⟨"", some e⟩, dir)
  | none =>
    match _validate_tool_code env code with
    | some e => (⟨"", some e⟩, dir)
    | none =>
      let fileName := name ++ ".py"
      if (dlookup dir fileName).isSome then
        (⟨"", some ("Tool \x27" ++ name ++ "\x27 already exists. Delete it first to replace.")⟩, dir)
      else
        (⟨"Created custom tool: " ++ fileName ++ "\n\nUse reload_tools to load it.", none⟩,
         dir ++ [(fileName, code)])

/-- `_delete_tool` of `src/mcp/tools/meta.py`: validate the stripped name;
if `<name>.py` exists unlink exactly that file, otherwise report not
found. -/
def _delete_tool (args : MetaArgs) (dir : Dir) : ToolResult × Dir :=
  let name := pyStrip (aget args "name")
  match _validate_tool_name name with
  | some e => (⟨"", some e⟩, dir)
  | none =>
    let fileName := name ++ ".py"
    if (dlookup dir fileName).isSome then
      (⟨"Deleted custom tool: " ++ name ++ "\n\nUse reload_tools to apply changes.", none⟩,
       derase dir fileName)
    else
      (⟨"", some ("Tool \x27" ++ name ++ "\x27 not found")⟩, dir)

/-- Process state seen by the meta handlers: the plugin directory plus the
live catalog built at import time.  The bodies of `_create_tool` and
`_delete_tool` touch only the filesystem and never reference the `TOOLS` or
`HANDLERS` globals. -/
structure ServerState (H : Type) where
  dir : Dir
  liveTools : List ToolDef
  liveHandlers : List (String × H)

/-- `create_tool` as a step on the process state. -/
def create_tool_step {H : Type} (env : ValidatorEnv) (args : MetaArgs)
    (st : ServerState H) : ToolResult × ServerState H :=
  let (r, d) := _create_tool env args st.dir
  (r, ⟨d, st.liveTools, st.liveHandlers⟩)

/-- `delete_tool` as a step on the process state. -/
def delete_tool_step {H : Type} (args : MetaArgs)
    (st : ServerState H) : ToolResult × ServerState H :=
  let (r, d) := _delete_tool args st.dir
  (r, ⟨d, st.liveTools, st.liveHandlers⟩)

/-- A core handler table with inert handlers, for exercising the dispatch
of admin names in the no-plugins configuration. -/
def dummyCoreTable : List (String × (Unit → Except String ToolResult)) :=
  _CORE_HANDLER_KEYS.map (fun n => (n, fun _ => Except.ok ⟨"", none⟩))

/-- Base catalog for the collision example: one tool named `"t"`. -/
def c4Base : List ToolDef := [⟨"t", "base tool"⟩]

/-- One plugin file that also defines a tool named `"t"`. -/
def c4Files : List (PluginFile Nat) :=
  [⟨"a.py", .loaded (some [⟨"t", "plugin tool"⟩]) (some [("t", 1)])⟩]

theorem isPrefixOf_self {α : Type} [BEq α] [LawfulBEq α] (l : List α) :
    l.isPrefixOf l = true := by
  induction l with
  | nil => rfl
  | cons a rest ih => simp [List.isPrefixOf, ih]

theorem dlookup_append {α : Type} (a b : List (String × α)) (k : String) :
    dlookup (a ++ b) k =
      match dlookup b k with
      | some v => some v
      | none => dlookup a k := by
  induction a with
  | nil =>
    simp only [List.nil_append, dlookup]
    cases h : dlookup b k <;> simp [h]
  | cons kv rest ih =>
    simp only [List.cons_append, dlookup, List.append_eq]
    rw [ih]
    cases h : dlookup b k <;> cases h2 : dlookup rest k <;> simp [h, h2]

theorem dlookup_eq_none_of_not_mem {α : Type} (a : List (String × α)) (k : String)
    (h : k ∉ a.map Prod.fst) : dlookup a k = none := by
  induction a with
  | nil => rfl
  | cons kv rest ih =>
    simp only [List.map_cons, List.mem_cons] at h
    push_neg at h
    simp only [dlookup, ih h.2]
    simp [Ne.symm h.1]

theorem dlookup_derase_ne {α : Type} (m : List (String × α)) (k j : String)
    (h : j ≠ k) : dlookup (derase m k) j = dlookup m j := by
  induction m with
  | nil => rfl
  | cons kv rest ih =>
    simp only [derase] at ih ⊢
    by_cases hk : kv.1 = k
    · rw [List.filter_cons, if_neg (by simp [hk])]
      rw [ih]
      simp only [dlookup]
      cases h2 : dlookup rest j <;> simp [h2, hk, Ne.symm h]
    · rw [List.filter_cons, if_pos (by simp [hk])]
      simp only [dlookup, ih]

theorem dlookup_append_single_ne {α : Type} (m : List (String × α)) (k j : String)
    (v : α) (h : j ≠ k) : dlookup (m ++ [(k, v)]) j = dlookup m j := by
  rw [dlookup_append]
  simp [dlookup, Ne.symm h]

/-- C1: whenever `safe_path` returns a path, that path is the vault root or
a descendant of it after canonicalization, and any input whose canonical
join falls outside the vault root yields `none` — for every canonicalization
behaviour `res`, provided the module was initialized with a resolved vault
root (`res vault = vault`). -/
theorem safe_path_confinement (res : List String → List String)
    (vault : List String) (s : String) (p : List String)
    (hres : res vault = vault) :
    (safe_path res vault s = some p → vault.isPrefixOf p = true) ∧
    (vault.isPrefixOf (res (joinPath vault s)) = false →
      safe_path res vault s = none) := by
  constructor
  · intro h
    by_cases h1 : strContains s ".." = true
    · simp [safe_path, h1] at h
    · by_cases h2 : (s == "" || s == ".") = true
      · simp [safe_path, h1, h2] at h
        rw [← h]
        exact isPrefixOf_self vault
      · by_cases h3 : vault.isPrefixOf (res (joinPath vault s)) = true
        · simp [safe_path, h1, h2, h3] at h
          rw [← h]
          exact h3
        · simp [safe_path, h1, h2, h3] at h
  · intro hout
    by_cases h1 : strContains s ".." = true
    · simp [safe_path, h1]
    · by_cases h2 : (s == "" || s == ".") = true
      · exfalso
        have hjoin : joinPath vault s = vault := by
          rcases Bool.or_eq_true_iff.mp h2 with h4 | h4
          · have hs : s = "" := by simpa using h4
            subst hs
            have hc : pathComponents "" = [] := by decide
            have hw : pyStartsWith "" "/" = false := by decide
            simp [joinPath, hw, hc]
          · have hs : s = "." := by simpa using h4
            subst hs
            have hc : pathComponents "." = [] := by decide
            have hw : pyStartsWith "." "/" = false := by decide
            simp [joinPath, hw, hc]
        rw [hjoin, hres, isPrefixOf_self] at hout
        exact absurd hout (by decide)
      · simp [safe_path, h1, h2, hout]

theorem safe_path_confinement_witness :
    (id ["v"] = ["v"]) ∧
    ((safe_path id ["v"] "/etc/passwd" = some ["etc", "passwd"] →
        List.isPrefixOf ["v"] ["etc", "passwd"] = true) ∧
     (List.isPrefixOf ["v"] (id (joinPath ["v"] "/etc/passwd")) = false →
        safe_path id ["v"] "/etc/passwd" = none)) :=
  ⟨rfl, safe_path_confinement id ["v"] "/etc/passwd" ["etc", "passwd"] rfl⟩

/-- C7: every input containing the two-character substring ".." anywhere is
rejected by `safe_path` (even inside a legitimate-looking filename), and the
empty string and "." both yield the vault root itself. -/
theorem safe_path_dotdot_reject (res : List String → List String)
    (vault : List String) (s : String) (h : strContains s ".." = true) :
    safe_path res vault s = none ∧
    safe_path res vault "" = some vault ∧
    safe_path res vault "." = some vault := by
  refine ⟨by simp [safe_path, h], ?_, ?_⟩
  · have h1 : strContains "" ".." = false := by decide
    simp [safe_path, h1]
  · have h1 : strContains "." ".." = false := by decide
    simp [safe_path, h1]

theorem safe_path_dotdot_reject_witness :
    strContains "a..b.md" ".." = true ∧
    (safe_path id ["v"] "a..b.md" = none ∧
     safe_path id ["v"] "" = some ["v"] ∧
     safe_path id ["v"] "." = some ["v"]) :=
  ⟨by decide, safe_path_dotdot_reject id ["v"] "a..b.md" (by decide)⟩

theorem mem_splitSlash (l : List Char) :
    ∀ w ∈ splitSlash l, ∀ c ∈ w, c ∈ l := by
  induction l with
  | nil =>
    intro w hw c hc
    simp only [splitSlash, List.mem_singleton] at hw
    subst hw
    cases hc
  | cons a rest ih =>
    intro w hw c hc
    by_cases ha : a = '/'
    · simp only [splitSlash, if_pos ha, List.mem_cons] at hw
      rcases hw with rfl | hw
      · cases hc
      · exact List.mem_cons_of_mem _ (ih w hw c hc)
    · simp only [splitSlash, if_neg ha] at hw
      rcases hsplit : splitSlash rest with _ | ⟨v, vs⟩
      · rw [hsplit] at hw
        simp only [List.mem_singleton] at hw
        subst hw
        rcases List.mem_singleton.mp hc with rfl
        exact List.mem_cons_self _ _
      · rw [hsplit] at hw
        rcases List.mem_cons.mp hw with rfl | hw2
        · rcases List.mem_cons.mp hc with rfl | hc2
          · exact List.mem_cons_self _ _
          · refine List.mem_cons_of_mem _ (ih v ?_ c hc2)
            rw [hsplit]
            exact List.mem_cons_self _ _
        · refine List.mem_cons_of_mem _ (ih w ?_ c hc)
          rw [hsplit]
          exact List.mem_cons_of_mem _ hw2

/-- C8 counterexample: an input carrying an embedded NUL byte passes the
`".."` check and the emptiness check, then `.resolve()` — outside the
`try` — propagates `ValueError`: `safe_path` does raise for this
malformed string, refuting the never-raises claim as stated. -/
theorem safe_path_raises_on_nul :
    strContains "a\x00b" ".." = false ∧
    ("a\x00b" == "" || "a\x00b" == ".") = false ∧
    safe_pathE id (some ["v"]) "a\x00b" =
      .error (.valueError "embedded null byte") :=
  ⟨rfl, rfl, rfl⟩

/-- C8 (amended): for an initialized module and any input string free of
NUL bytes (over a NUL-free vault root), `safe_path` raises no exception:
the `try/except ValueError` catches the containment check's failure, and
the outcome is the `.ok` of the pure result — a path or the `None`
sentinel, which the caller must check before any I/O. -/
theorem safe_pathE_no_nul_total (res : List String → List String)
    (v : Option (List String)) (vault : List String) (s : String)
    (hinit : v = some vault)
    (hvault : ∀ comp ∈ vault, '\x00' ∉ comp.data)
    (hs : '\x00' ∉ s.data) :
    safe_pathE res v s = .ok (safe_path res vault s) := by
  subst hinit
  by_cases h1 : strContains s ".." = true
  · simp [safe_pathE, safe_path, get_vault_pathE, h1, Bind.bind, Except.bind,
      pure, Except.pure]
  · by_cases h2 : (s == "" || s == ".") = true
    · simp [safe_pathE, safe_path, get_vault_pathE, h1, h2, Bind.bind,
        Except.bind, pure, Except.pure]
    · have hcomp : ∀ comp ∈ joinPath vault s, '\x00' ∉ comp.data := by
        intro comp hmem
        have hsub : comp ∈ vault ∨ comp ∈ pathComponents s := by
          unfold joinPath at hmem
          split at hmem
          · exact Or.inr hmem
          · exact List.mem_append.mp hmem
        rcases hsub with hv | hp
        · exact hvault comp hv
        · intro hnulmem
          have hmap : comp ∈ (splitSlash s.data).map (fun w => String.mk w) :=
            List.mem_of_mem_filter hp
          rcases List.mem_map.mp hmap with ⟨w, hw, rfl⟩
          exact hs (mem_splitSlash s.data w hw '\x00' hnulmem)
      have hguard : hasNulByte (joinPath vault s) = false := by
        simp only [hasNulByte, List.any_eq_false]
        intro comp hmem hany
        rcases List.any_eq_true.mp hany with ⟨ch, hch, heq⟩
        rw [beq_iff_eq] at heq
        exact hcomp comp hmem (heq ▸ hch)
      have hres : resolveE res (joinPath vault s) = .ok (res (joinPath vault s)) := by
        simp [resolveE, hguard]
      by_cases h3 : vault.isPrefixOf (res (joinPath vault s)) = true
      · simp [safe_pathE, safe_path, get_vault_pathE, relative_toE, h1, h2, h3,
          hres, Bind.bind, Except.bind, pure, Except.pure]
      · simp [safe_pathE, safe_path, get_vault_pathE, relative_toE, h1, h2, h3,
          hres, Bind.bind, Except.bind, pure, Except.pure]

theorem safe_pathE_no_nul_total_witness :
    (some ["v"] = some ["v"]) ∧
    (∀ comp ∈ ["v"], '\x00' ∉ comp.data) ∧
    '\x00' ∉ "notes/a.md".data ∧
    safe_pathE id (some ["v"]) "notes/a.md" = .ok (safe_path id ["v"] "notes/a.md") :=
  ⟨rfl, by decide, by decide,
    safe_pathE_no_nul_total id (some ["v"]) ["v"] "notes/a.md" rfl (by decide) (by decide)⟩

/-- C3: `call_tool` is a total function into `ToolResult`: an unbound name
yields exactly the unknown-tool result, a handler that raises has its
message caught and rendered, and a handler that returns passes its result
through. -/
theorem call_tool_spec {A : Type}
    (table : List (String × (A → Except String ToolResult)))
    (name : String) (args : A) :
    (dlookup table name = none →
      call_tool table name args = ⟨"", some ("Unknown tool: " ++ name)⟩) ∧
    (∀ f, dlookup table name = some f →
      (∀ e, f args = .error e → call_tool table name args = ⟨"", some e⟩) ∧
      (∀ r, f args = .ok r → call_tool table name args = r)) := by
  constructor
  · intro h
    simp [call_tool, h]
  · intro f hf
    constructor
    · intro e he
      simp [call_tool, hf, he]
    · intro r hr
      simp [call_tool, hf, hr]

theorem call_tool_spec_witness :
    call_tool [("t", fun _ : Unit => Except.error "boom")] "t" () =
      ⟨"", some "boom"⟩ :=
  ((call_tool_spec [("t", fun _ : Unit => Except.error "boom")] "t" ()).2
    (fun _ => Except.error "boom") rfl).1 "boom" rfl

/-- C2 (evidence of the slip): a merged handler table whose keys are those
of `_CORE_HANDLERS` — the import-time `HANDLERS` when no custom plugin file
is installed — binds none of the four admin names of `meta.HANDLERS`, and
dispatching any of them returns the unknown-tool error: `meta` is never
merged into the catalog by `src/mcp/tools/__init__.py`. -/
theorem admin_tools_unbound {A : Type}
    (table : List (String × (A → Except String ToolResult))) (args : A)
    (htable : table.map Prod.fst = _CORE_HANDLER_KEYS) :
    ∀ n ∈ META_HANDLER_KEYS,
      n ∉ _CORE_HANDLER_KEYS ∧
      call_tool table n args = ⟨"", some ("Unknown tool: " ++ n)⟩ := by
  intro n hn
  have hnot : n ∉ _CORE_HANDLER_KEYS := by
    simp only [META_HANDLER_KEYS, List.mem_cons, List.not_mem_nil, or_false] at hn
    rcases hn with rfl | rfl | rfl | rfl <;> decide
  have hnone : dlookup table n = none :=
    dlookup_eq_none_of_not_mem table n (htable ▸ hnot)
  exact ⟨hnot, by simp [call_tool, hnone]⟩

theorem admin_tools_unbound_witness :
    call_tool dummyCoreTable "create_tool" () =
      ⟨"", some "Unknown tool: create_tool"⟩ :=
  (admin_tools_unbound dummyCoreTable ()
      (by simp only [dummyCoreTable, List.map_map]; exact List.map_id _)
    "create_tool" (by simp [META_HANDLER_KEYS])).2

theorem load_append {H : Type} (xs ys : List (PluginFile H)) :
    _load_custom_tools (xs ++ ys) =
      ⟨(_load_custom_tools xs).tools ++ (_load_custom_tools ys).tools,
       (_load_custom_tools xs).handlers ++ (_load_custom_tools ys).handlers,
       (_load_custom_tools xs).failures ++ (_load_custom_tools ys).failures⟩ := by
  induction xs with
  | nil => simp [_load_custom_tools]
  | cons f rest ih =>
    simp only [List.cons_append, _load_custom_tools]
    by_cases h : pyStartsWith f.name "_" = true
    · simp [h, ih]
    · cases ho : f.outcome <;> simp [h, ho, ih]

/-- C9: a plugin module whose load raises contributes no tool definitions
and no handlers, its failure is recorded against it alone, and every other
module loads exactly as if the failing one were absent — the build always
completes. -/
theorem load_failure_isolation {H : Type} (pre post : List (PluginFile H))
    (n msg : String) (h : pyStartsWith n "_" = false) :
    (_load_custom_tools (pre ++ ⟨n, .loadError msg⟩ :: post)).tools =
      (_load_custom_tools (pre ++ post)).tools ∧
    (_load_custom_tools (pre ++ ⟨n, .loadError msg⟩ :: post)).handlers =
      (_load_custom_tools (pre ++ post)).handlers ∧
    (_load_custom_tools (pre ++ ⟨n, .loadError msg⟩ :: post)).failures =
      (_load_custom_tools pre).failures ++
        ("Warning: Failed to load custom tool " ++ n ++ ": " ++ msg) ::
          (_load_custom_tools post).failures := by
  have estep : _load_custom_tools (⟨n, LoadOutcome.loadError msg⟩ :: post) =
      ⟨(_load_custom_tools post).tools, (_load_custom_tools post).handlers,
        ("Warning: Failed to load custom tool " ++ n ++ ": " ++ msg) ::
          (_load_custom_tools post).failures⟩ := by
    simp [_load_custom_tools, h]
  rw [load_append pre (⟨n, .loadError msg⟩ :: post), estep,
    load_append pre post]
  simp

theorem load_failure_isolation_witness :
    (_load_custom_tools [(⟨"bad.py", LoadOutcome.loadError "boom"⟩ : PluginFile Unit)]).handlers =
      (_load_custom_tools ([] : List (PluginFile Unit))).handlers :=
  (load_failure_isolation [] [] "bad.py" "boom" (by decide)).2.1

theorem charListLe_total (a b : List Char) :
    charListLe a b = true ∨ charListLe b a = true := by
  induction a generalizing b with
  | nil => left; rfl
  | cons x xs ih =>
    cases b with
    | nil => right; rfl
    | cons y ys =>
      by_cases hxy : x = y
      · subst hxy
        simp only [charListLe, if_pos rfl]
        exact ih ys
      · simp only [charListLe, if_neg hxy, if_neg (Ne.symm hxy)]
        rcases lt_trichotomy x y with hlt | heq | hgt
        · left; exact decide_eq_true hlt
        · exact absurd heq hxy
        · right; exact decide_eq_true hgt

theorem charListLe_trans (a b c : List Char) (h1 : charListLe a b = true)
    (h2 : charListLe b c = true) : charListLe a c = true := by
  induction a generalizing b c with
  | nil => rfl
  | cons x xs ih =>
    cases b with
    | nil => simp [charListLe] at h1
    | cons y ys =>
      cases c with
      | nil => simp [charListLe] at h2
      | cons z zs =>
        simp only [charListLe] at h1 h2 ⊢
        by_cases hxy : x = y
        · subst hxy
          rw [if_pos rfl] at h1
          by_cases hyz : x = z
          · subst hyz
            rw [if_pos rfl] at h2 ⊢
            exact ih ys zs h1 h2
          · rw [if_neg hyz] at h2 ⊢
            exact h2
        · rw [if_neg hxy] at h1
          replace h1 : x < y := of_decide_eq_true h1
          by_cases hyz : y = z
          · subst hyz
            rw [if_neg hxy]
            exact decide_eq_true h1
          · rw [if_neg hyz] at h2
            replace h2 : y < z := of_decide_eq_true h2
            have hxz : x < z := lt_trans h1 h2
            rw [if_neg (ne_of_lt hxz)]
            exact decide_eq_true hxz

theorem mem_insertByName {H : Type} (f b : PluginFile H)
    (l : List (PluginFile H)) (hb : b ∈ insertByName f l) : b = f ∨ b ∈ l := by
  induction l with
  | nil =>
    simp only [insertByName, List.mem_singleton] at hb
    exact Or.inl hb
  | cons g gs ih =>
    by_cases h : nameLe f.name g.name = true
    · simp only [insertByName, if_pos h, List.mem_cons] at hb
      rcases hb with rfl | hb
      · exact Or.inl rfl
      · exact Or.inr (List.mem_cons.mpr hb)
    · simp only [insertByName, if_neg h, List.mem_cons] at hb
      rcases hb with rfl | hb
      · exact Or.inr (List.mem_cons_self _ _)
      · rcases ih hb with rfl | hb2
        · exact Or.inl rfl
        · exact Or.inr (List.mem_cons_of_mem _ hb2)

theorem insertByName_pairwise {H : Type} (f : PluginFile H)
    (l : List (PluginFile H))
    (hl : l.Pairwise (fun a b => nameLe a.name b.name = true)) :
    (insertByName f l).Pairwise (fun a b => nameLe a.name b.name = true) := by
  induction l with
  | nil => simp [insertByName]
  | cons g gs ih =>
    rcases List.pairwise_cons.mp hl with ⟨hg, hgs⟩
    by_cases h : nameLe f.name g.name = true
    · simp only [insertByName, if_pos h]
      refine List.pairwise_cons.mpr ⟨?_, hl⟩
      intro b hb
      rcases List.mem_cons.mp hb with rfl | hb
      · exact h
      · exact charListLe_trans _ _ _ h (hg b hb)
    · simp only [insertByName, if_neg h]
      refine List.pairwise_cons.mpr ⟨?_, ih hgs⟩
      intro b hb
      rcases mem_insertByName f b gs hb with rfl | hb2
      · rcases charListLe_total b.name.data g.name.data with h1 | h1
        · exact absurd h1 h
        · exact h1
      · exact hg b hb2

theorem sortFiles_pairwise {H : Type} (files : List (PluginFile H)) :
    (sortFiles files).Pairwise (fun a b => nameLe a.name b.name = true) := by
  induction files with
  | nil => exact List.Pairwise.nil
  | cons f rest ih =>
    simp only [sortFiles]
    exact insertByName_pairwise f _ ih

/-- C4 counterexample: on a name collision the handler mapping is indeed
overridden by the plugin, but the merged ordered sequence of tool
definitions retains the base entry as well — both definitions named `"t"`
survive, refuting the claim that the override applies to the definition
sequence. -/
theorem tooldef_override_cex :
    dlookup (mkHANDLERS [("t", 0)] c4Files) "t" = some 1 ∧
    ToolDef.mk "t" "base tool" ∈ mkTOOLS c4Base c4Files ∧
    ¬ ((mkTOOLS c4Base c4Files).countP (fun d => d.name == "t") ≤ 1) := by
  decide

/-- C4 (amended): plugin files are processed in ascending filename order
with `_`-prefixed files skipped entirely; in the handler mapping a
plugin-sourced binding overrides a base binding and a binding from a
later-loaded module overrides an earlier one; the ordered tool-definition
sequence, by contrast, is plain concatenation — base definitions first,
then plugin definitions in load order — so colliding definitions are
retained, not replaced. -/
theorem catalog_merge_amended {H : Type} :
    (∀ files : List (PluginFile H),
      (sortFiles files).Pairwise (fun a b => nameLe a.name b.name = true)) ∧
    (∀ (pre post : List (PluginFile H)) (f : PluginFile H),
      pyStartsWith f.name "_" = true →
      _load_custom_tools (pre ++ f :: post) = _load_custom_tools (pre ++ post)) ∧
    (∀ (coreH : List (String × H)) (files : List (PluginFile H)) (k : String) (v : H),
      dlookup (loadCustomDir files).handlers k = some v →
      dlookup (mkHANDLERS coreH files) k = some v) ∧
    (∀ (xs ys : List (PluginFile H)) (k : String) (v : H),
      dlookup (_load_custom_tools ys).handlers k = some v →
      dlookup (_load_custom_tools (xs ++ ys)).handlers k = some v) ∧
    (∀ (coreT : List ToolDef) (files : List (PluginFile H)) (d : ToolDef),
      d ∈ coreT → d ∈ mkTOOLS coreT files) ∧
    (∀ (xs ys : List (PluginFile H)),
      (_load_custom_tools (xs ++ ys)).tools =
        (_load_custom_tools xs).tools ++ (_load_custom_tools ys).tools) := by
  refine ⟨sortFiles_pairwise, ?_, ?_, ?_, ?_, ?_⟩
  · intro pre post f h
    have hstep : _load_custom_tools (f :: post) = _load_custom_tools post := by
      simp [_load_custom_tools, h]
    rw [load_append, hstep, ← load_append]
  · intro coreH files k v hv
    simp only [mkHANDLERS]
    rw [dlookup_append, hv]
  · intro xs ys k v hv
    rw [load_append]
    dsimp only
    rw [dlookup_append, hv]
  · intro coreT files d hd
    exact List.mem_append_left _ hd
  · intro xs ys
    rw [load_append]

theorem catalog_merge_amended_witness :
    _load_custom_tools ([(⟨"_x.py", LoadOutcome.specFail⟩ : PluginFile Unit)]) =
      _load_custom_tools ([] : List (PluginFile Unit)) :=
  (catalog_merge_amended (H := Unit)).2.1 [] [] ⟨"_x.py", .specFail⟩ (by decide)

/-- C5: `_validate_tool_code` accepts a source text if and only if it is
non-empty, contains both markers, matches no denylist pattern, and
compiles; the checks run in exactly that order, and the first failing
check's reason is returned (for the denylist, the first matching pattern in
list order). -/
theorem validate_tool_code_spec (env : ValidatorEnv) (code : String) :
    (_validate_tool_code env code = none ↔
      (code ≠ "" ∧ strContains code "TOOLS" = true ∧
       strContains code "HANDLERS" = true ∧
       (∀ p ∈ FORBIDDEN_PATTERNS, env.research p code = false) ∧
       env.compileErr code = none)) ∧
    (code = "" → _validate_tool_code env code = some "Code is required") ∧
    (code ≠ "" → strContains code "TOOLS" = false →
      _validate_tool_code env code = some "Code must define TOOLS list") ∧
    (code ≠ "" → strContains code "TOOLS" = true →
      strContains code "HANDLERS" = false →
      _validate_tool_code env code = some "Code must define HANDLERS dict") ∧
    (∀ p, code ≠ "" → strContains code "TOOLS" = true →
      strContains code "HANDLERS" = true →
      FORBIDDEN_PATTERNS.find? (fun q => env.research q code) = some p →
      _validate_tool_code env code = some ("Forbidden pattern detected: " ++ p)) ∧
    (∀ e, code ≠ "" → strContains code "TOOLS" = true →
      strContains code "HANDLERS" = true →
      (∀ p ∈ FORBIDDEN_PATTERNS, env.research p code = false) →
      env.compileErr code = some e →
      _validate_tool_code env code = some ("Syntax error: " ++ e)) := by
  refine ⟨⟨?_, ?_⟩, ?_, ?_, ?_, ?_, ?_⟩
  · intro h
    by_cases h1 : code = ""
    · simp [_validate_tool_code, h1] at h
    · by_cases h2 : strContains code "TOOLS" = true
      · by_cases h3 : strContains code "HANDLERS" = true
        · rcases h4 : FORBIDDEN_PATTERNS.find? (fun q => env.research q code) with _ | p
          · rcases h5 : env.compileErr code with _ | e
            · refine ⟨h1, h2, h3, ?_, h5 ▸ rfl⟩
              intro p hp
              have := List.find?_eq_none.mp h4 p hp
              simpa using this
            · simp [_validate_tool_code, h1, h2, h3, h4, h5] at h
          · simp [_validate_tool_code, h1, h2, h3, h4] at h
        · simp [_validate_tool_code, h1, h2, h3] at h
      · simp [_validate_tool_code, h1, h2] at h
  · rintro ⟨h1, h2, h3, h4, h5⟩
    have h6 : FORBIDDEN_PATTERNS.find? (fun q => env.research q code) = none := by
      apply List.find?_eq_none.mpr
      intro x hx
      simp [h4 x hx]
    simp [_validate_tool_code, h1, h2, h3, h6, h5]
  · intro h1
    simp [_validate_tool_code, h1]
  · intro h1 h2
    simp [_validate_tool_code, h1, h2]
  · intro h1 h2 h3
    simp [_validate_tool_code, h1, h2, h3]
  · intro p h1 h2 h3 hfind
    simp [_validate_tool_code, h1, h2, h3, hfind]
  · intro e h1 h2 h3 h4 h5
    have h6 : FORBIDDEN_PATTERNS.find? (fun q => env.research q code) = none := by
      apply List.find?_eq_none.mpr
      intro x hx
      simp [h4 x hx]
    simp [_validate_tool_code, h1, h2, h3, h6, h5]

theorem validate_tool_code_spec_witness :
    _validate_tool_code ⟨fun _ _ => false, fun _ => none⟩ "TOOLS HANDLERS" = none :=
  (validate_tool_code_spec ⟨fun _ _ => false, fun _ => none⟩ "TOOLS HANDLERS").1.mpr
    ⟨by decide, by decide, by decide, fun _ _ => rfl, rfl⟩

/-- C6: `create_tool` persists a plugin file exactly when the stripped name
validates, the code validates, and no file of that name exists; any failure
returns an error result with the directory contents untouched (validation
strictly precedes persistence), a success appends exactly the one new file,
and the live catalog is never altered either way. -/
theorem create_tool_spec {H : Type} (env : ValidatorEnv) (args : MetaArgs)
    (dir : Dir) (liveT : List ToolDef) (liveH : List (String × H)) :
    ((_create_tool env args dir).1.error = none ↔
      (_validate_tool_name (pyStrip (aget args "name")) = none ∧
       _validate_tool_code env (aget args "code") = none ∧
       dlookup dir (pyStrip (aget args "name") ++ ".py") = none)) ∧
    ((_create_tool env args dir).1.error ≠ none →
      (_create_tool env args dir).2 = dir) ∧
    ((_create_tool env args dir).1.error = none →
      (_create_tool env args dir).2 =
        dir ++ [(pyStrip (aget args "name") ++ ".py", aget args "code")]) ∧
    (create_tool_step env args (⟨dir, liveT, liveH⟩ : ServerState H)).2.liveTools = liveT ∧
    (create_tool_step env args (⟨dir, liveT, liveH⟩ : ServerState H)).2.liveHandlers = liveH := by
  refine ⟨?_, ?_, ?_, ?_, ?_⟩
  · cases hn : _validate_tool_name (pyStrip (aget args "name")) with
    | some e => simp [_create_tool, hn]
    | none =>
      cases hc : _validate_tool_code env (aget args "code") with
      | some e => simp [_create_tool, hn, hc]
      | none =>
        cases hd : dlookup dir (pyStrip (aget args "name") ++ ".py") with
        | some v => simp [_create_tool, hn, hc, hd]
        | none => simp [_create_tool, hn, hc, hd]
  · cases hn : _validate_tool_name (pyStrip (aget args "name")) with
    | some e => simp [_create_tool, hn]
    | none =>
      cases hc : _validate_tool_code env (aget args "code") with
      | some e => simp [_create_tool, hn, hc]
      | none =>
        cases hd : dlookup dir (pyStrip (aget args "name") ++ ".py") with
        | some v => simp [_create_tool, hn, hc, hd]
        | none => simp [_create_tool, hn, hc, hd]
  · cases hn : _validate_tool_name (pyStrip (aget args "name")) with
    | some e => simp [_create_tool, hn]
    | none =>
      cases hc : _validate_tool_code env (aget args "code") with
      | some e => simp [_create_tool, hn, hc]
      | none =>
        cases hd : dlookup dir (pyStrip (aget args "name") ++ ".py") with
        | some v => simp [_create_tool, hn, hc, hd]
        | none => simp [_create_tool, hn, hc, hd]
  · rfl
  · rfl

theorem create_tool_spec_witness :
    (_create_tool ⟨fun _ _ => false, fun _ => none⟩
        [("name", "greet"), ("code", "TOOLS HANDLERS")] []).2 =
      [] ++ [("greet.py", "TOOLS HANDLERS")] :=
  (create_tool_spec (H := Unit) ⟨fun _ _ => false, fun _ => none⟩
      [("name", "greet"), ("code", "TOOLS HANDLERS")] [] [] []).2.2.1 (by decide)

theorem toolNameChars_mem (l : List Char) (c : Char)
    (hl : toolNameChars l = true) (hc : c ∈ l) :
    (c.isAlphanum || c == '_') = true := by
  cases l with
  | nil => cases hc
  | cons a rest =>
    simp only [toolNameChars, Bool.and_eq_true] at hl
    rcases List.mem_cons.mp hc with rfl | hc
    · have : c.isAlphanum = true := by
        simp [Char.isAlphanum, hl.1]
      simp [this]
    · have := List.all_eq_true.mp hl.2 c hc
      simpa using this

theorem reMatchToolName_mem (name : String) (c : Char)
    (h : reMatchToolName name = true) (hc : c ∈ name.data) :
    (c.isAlphanum || c == '_') = true ∨ c = '\n' := by
  rcases Bool.or_eq_true_iff.mp h with h1 | h1
  · exact Or.inl (toolNameChars_mem _ c h1 hc)
  · rw [Bool.and_eq_true] at h1
    rcases h1 with ⟨hlast, hchars⟩
    rw [beq_iff_eq] at hlast
    have hne : name.data ≠ [] := by
      intro h0
      rw [h0] at hlast
      simp at hlast
    have hsplit : name.data.dropLast ++ [name.data.getLast hne] = name.data :=
      List.dropLast_append_getLast hne
    rw [← hsplit] at hc
    rcases List.mem_append.mp hc with hc1 | hc1
    · exact Or.inl (toolNameChars_mem _ c hchars hc1)
    · have hlastval : name.data.getLast hne = '\n' := by
        rw [List.getLast?_eq_getLast _ hne] at hlast
        simpa using hlast
      rcases List.mem_singleton.mp hc1 with rfl
      exact Or.inr hlastval

/-- C10: a name accepted by `_validate_tool_name` matches the name pattern
and contains neither a path separator nor a dot, and the `delete_tool` and
`create_tool` file operations change no directory entry other than
`<strippedname>.py` — no call can create or remove a filesystem entry
outside the custom-tools directory. -/
theorem admin_ops_confined (name : String) (env : ValidatorEnv)
    (args : MetaArgs) (dir : Dir) (k : String)
    (hv : _validate_tool_name name = none)
    (hk : k ≠ pyStrip (aget args "name") ++ ".py") :
    reMatchToolName name = true ∧
    '/' ∉ name.data ∧ '.' ∉ name.data ∧
    dlookup (_delete_tool args dir).2 k = dlookup dir k ∧
    dlookup (_create_tool env args dir).2 k = dlookup dir k := by
  have hre : reMatchToolName name = true := by
    by_cases h1 : (name == "") = true
    · simp [_validate_tool_name, h1] at hv
    · by_cases h2 : reMatchToolName name = true
      · exact h2
      · simp [_validate_tool_name, h1, h2] at hv
  refine ⟨hre, ?_, ?_, ?_, ?_⟩
  · intro hmem
    rcases reMatchToolName_mem name '/' hre hmem with hX | hX
    · exact absurd hX (by decide)
    · exact absurd hX (by decide)
  · intro hmem
    rcases reMatchToolName_mem name '.' hre hmem with hX | hX
    · exact absurd hX (by decide)
    · exact absurd hX (by decide)
  · cases hn : _validate_tool_name (pyStrip (aget args "name")) with
    | some e => simp [_delete_tool, hn]
    | none =>
      cases hd : dlookup dir (pyStrip (aget args "name") ++ ".py") with
      | some v =>
        simp only [_delete_tool, hn, hd, Option.isSome_some, if_true]
        exact dlookup_derase_ne dir _ k hk
      | none => simp [_delete_tool, hn, hd]
  · cases hn : _validate_tool_name (pyStrip (aget args "name")) with
    | some e => simp [_create_tool, hn]
    | none =>
      cases hc : _validate_tool_code env (aget args "code") with
      | some e => simp [_create_tool, hn, hc]
      | none =>
        cases hd : dlookup dir (pyStrip (aget args "name") ++ ".py") with
        | some v => simp [_create_tool, hn, hc, hd]
        | none =>
          simp only [_create_tool, hn, hc, hd, Option.isSome_none, Bool.false_eq_true,
            if_false]
          exact dlookup_append_single_ne dir _ k _ hk

theorem admin_ops_confined_witness :
    reMatchToolName "mytool" = true ∧
    '/' ∉ "mytool".data ∧ '.' ∉ "mytool".data ∧
    dlookup (_delete_tool [("name", "other")] []).2 "x.py" = dlookup ([] : Dir) "x.py" ∧
    dlookup (_create_tool ⟨fun _ _ => true, fun _ => none⟩ [("name", "other")] []).2 "x.py" =
      dlookup ([] : Dir) "x.py" :=
  admin_ops_confined "mytool" ⟨fun _ _ => true, fun _ => none⟩
    [("name", "other")] [] "x.py" (by decide) (by decide)
